import Mathlib

/-!
Shallow embedding of the text-layout engine of the handwriting generator
(`src/handwriter/__init__.py`, `src/handwriter/font.py`, `src/handwriter/bbox.py`).

Machine integers are modelled as `Int`/`Nat`; Python floats arising from the
fractional bounding-box metadata are modelled as exact rationals `ℚ`; Python's
`int()` truncation and banker's `round()` are modelled explicitly.  Fallible
Python code (exceptions) is modelled with `Except PyErr`.  Pixel buffers are
modelled as dimension data plus per-pixel lookup functions (the L channel used
by the ink scans, and the any-band-nonzero test used by `Image.getbbox`).
-/

set_option autoImplicit false

namespace Handwriter

/-- The Python exceptions that the embedded code can raise. -/
inductive PyErr where
  | invalidLetterInterconnection
  | unboundLocal
  | assertionError
  | valueError
  | keyError
  | indexError
  | systemExit
deriving DecidableEq, Repr

/-- Canvas-space integer pixel coordinates, as in `font.py`: `Coordinates = tuple[int, int]`. -/
abbrev Coordinates := ℤ × ℤ

/-- Python `int()` applied to a real value: truncation toward zero. -/
def pyInt (q : ℚ) : ℤ := if 0 ≤ q then q.floor else q.ceil

/-- Python 3 `round()` on a real value: round half to even. -/
def pyRound (q : ℚ) : ℤ :=
  let f := q.floor
  let r := q - (f : ℚ)
  if r < 1/2 then f
  else if 1/2 < r then f + 1
  else if f % 2 = 0 then f else f + 1

/-- Python `max()` over a list of naturals: `ValueError` on an empty sequence. -/
def pyMaxNat : List Nat → Except PyErr Nat
  | [] => .error .valueError
  | a :: rest => .ok (rest.foldl Nat.max a)

/-- Python `str.split(sep)` on a list of characters (always returns at least one piece;
`"".split(sep) == [""]`). -/
def pySplit (sep : Char) : List Char → List (List Char)
  | [] => [[]]
  | c :: rest =>
    match pySplit sep rest with
    | [] => [[]]
    | line :: more => if c = sep then [] :: line :: more else (c :: line) :: more

/-- Model of Python `str.isalpha` (restricted to the character range the embedding uses). -/
def py_isalpha (c : Char) : Bool := c.isAlpha

/-- A PIL image as the layout engine observes it: its dimensions, the L-channel
value of each pixel (`0` = black ink, used by the `.getchannel("L")` scans), and
whether any band of the pixel is nonzero (the content test used by `Image.getbbox`). -/
structure Img where
  width : Nat
  height : Nat
  pixL : Nat → Nat → Nat
  pixNonzero : Nat → Nat → Bool

/-- `Image.crop((l, t, r, b))`: pixels outside the source image read as zero
(black in the L channel, empty for the content test), as in PIL. -/
def Img.crop (img : Img) (l t r b : Nat) : Img where
  width := r - l
  height := b - t
  pixL := fun x y => if l + x < img.width ∧ t + y < img.height then img.pixL (l + x) (t + y) else 0
  pixNonzero := fun x y =>
    if l + x < img.width ∧ t + y < img.height then img.pixNonzero (l + x) (t + y) else false

/-- `image.getchannel("L").getdata()`: the L-channel pixel values in row-major order. -/
def Img.dataL (img : Img) : List Nat :=
  (List.range img.height).flatMap (fun y => (List.range img.width).map (fun x => img.pixL x y))

/-- `Image.getbbox()`: the bounding box `(left, upper, right, lower)` of the
nonzero regions of the image, or `none` when the image is entirely zero. -/
def Img.getbbox (img : Img) : Option (Nat × Nat × Nat × Nat) :=
  let pts := (List.range img.width).flatMap (fun x =>
    (List.range img.height).flatMap (fun y => if img.pixNonzero x y then [(x, y)] else []))
  match pts with
  | [] => none
  | p :: rest =>
    let xs := (p :: rest).map Prod.fst
    let ys := (p :: rest).map Prod.snd
    some (xs.foldl Nat.min p.1, ys.foldl Nat.min p.2, xs.foldl Nat.max 0 + 1, ys.foldl Nat.max 0 + 1)

/-- The connection-start calculation strategies of `bbox.py`. -/
inductive ConnectionStart where
  | far_right
  | far_right_of_bottom_half
  | bottom
deriving DecidableEq, Repr

/-- Per-character layout metadata of `bbox.py` (fractions of the variation image size). -/
structure BoundingBox where
  start_x : ℚ
  end_x : ℚ
  baseline_y : ℚ
  connection_start : Option ConnectionStart

/-- A selected letter variation: character, image and bounding box (`font.py`). -/
structure LetterVariation where
  char : Char
  image : Img
  bbox : BoundingBox

/-- `LetterVariation.find_connection_start_coords`, translated from `font.py`.
The ink scans take the first index whose L value is `0`; a missing ink pixel is
caught internally (`except ValueError`) and falls back to the image midpoint,
logging a warning.  A non-alphabetic character raises
`InvalidLetterInterconnectionError`.  When the character is alphabetic but the
bounding box declares no strategy, none of the `if`/`elif` branches assigns
`connection_x`/`connection_y` and the final `return` raises `UnboundLocalError`. -/
def LetterVariation.find_connection_start_coords (lv : LetterVariation) :
    Except PyErr Coordinates :=
  if ¬ py_isalpha lv.char then .error .invalidLetterInterconnection
  else
    match lv.bbox.connection_start with
    | some .far_right =>
      let strip := (lv.image.crop (lv.image.width - 1) 0 lv.image.width lv.image.height).dataL
      let connection_y := (strip.findIdx? (fun v => v = 0)).getD (lv.image.height / 2)
      .ok ((lv.image.width : ℤ), (connection_y : ℤ))
    | some .bottom =>
      let strip := (lv.image.crop 0 (lv.image.height - 1) lv.image.width lv.image.height).dataL
      let connection_x := (strip.findIdx? (fun v => v = 0)).getD (lv.image.width / 2)
      .ok ((connection_x : ℤ), (lv.image.height : ℤ))
    | some .far_right_of_bottom_half =>
      let bottom_half := lv.image.crop 0 (lv.image.height / 2) lv.image.width lv.image.height
      match bottom_half.getbbox with
      | none => .error .assertionError
      | some bb =>
        -- the source reads `bottom_half_bbox[3]`, i.e. the LOWER edge of the box
        let rightmost_nonempty_x := bb.2.2.2
        let strip := (bottom_half.crop (rightmost_nonempty_x - 1) 0 rightmost_nonempty_x
          bottom_half.height).dataL
        let connection_y :=
          match strip.findIdx? (fun v => v = 0) with
          | some i => lv.image.height / 2 + i
          | none => lv.image.height / 2
        .ok ((rightmost_nonempty_x : ℤ), (connection_y : ℤ))
    | none => .error .unboundLocal

/-- `LetterVariation.find_connection_end_coords`, translated from `font.py`.
Crops the part of the image above the baseline fraction, asserts its content
bounding box exists (`AssertionError` otherwise), takes the leftmost content
column and scans it for the first ink pixel, with the midpoint fallback. -/
def LetterVariation.find_connection_end_coords (lv : LetterVariation) :
    Except PyErr Coordinates :=
  if ¬ py_isalpha lv.char then .error .invalidLetterInterconnection
  else
    let part := lv.image.crop 0 0 lv.image.width
      (pyInt (lv.bbox.baseline_y * (lv.image.height : ℚ))).toNat
    match part.getbbox with
    | none => .error .assertionError
    | some bb =>
      let leftmost_nonempty_x := bb.1
      let strip := (part.crop leftmost_nonempty_x 0 (leftmost_nonempty_x + 1) part.height).dataL
      let connection_y := (strip.findIdx? (fun v => v = 0)).getD (lv.image.height / 2)
      .ok ((leftmost_nonempty_x : ℤ), (connection_y : ℤ))

/-- The glyph catalog of `font.py`: characters mapped to loaded variation
images, plus the bounding-box metadata mapping (read from static configuration
in `Font.__init__`). -/
structure Font where
  dict : List (Char × List Img)
  bboxes : List (Char × BoundingBox)

/-- `Font._char_to_filename`: the fixed character-to-asset-name table; a
character outside the supported set raises `KeyError` from the dict lookup. -/
def char_to_filename (c : Char) : Except PyErr String :=
  if c.isLower ∨ c.isDigit then .ok (String.mk [c])
  else if c.isUpper then .ok (String.mk ['_', c.toLower])
  else if c = '.' then .ok "dot"
  else if c = ',' then .ok "comma"
  else if c = ':' then .ok "colon"
  else if c = ';' then .ok "semicolon"
  else if c = '-' then .ok "dash"
  else if c = '"' then .ok "quoteopen"
  else if c = '!' then .ok "exclamation"
  else if c = '?' then .ok "question"
  else .error .keyError

/-- The body of the loop in `Font.load`: for each required letter, glob the
letter's image directory (modelled by `fs`), append the result, and then run
the source's check `if not letters_images: sys.exit(1)` — which tests the WHOLE
dict (always non-empty right after an insertion), not the current letter's list. -/
def load_loop (fs : String → List Img) :
    List Char → List (Char × List Img) → Except PyErr (List (Char × List Img))
  | [], acc => .ok acc
  | c :: rest, acc =>
    match char_to_filename c with
    | .error e => .error e
    | .ok fn =>
      let acc1 := acc ++ [(c, fs fn)]
      if acc1.isEmpty then .error .systemExit
      else load_loop fs rest acc1

/-- `Font.load`: loads variation images only for the characters of `text` with
spaces and newlines removed (Python builds a `set`, whose iteration order is
unspecified; the embedding deduplicates the filtered list).  `fs` models the
filesystem: the PNG images found in each asset directory. -/
def Font.load (fs : String → List Img) (bboxes : List (Char × BoundingBox))
    (text : List Char) : Except PyErr Font :=
  match load_loop fs ((text.filter (fun c => c != ' ' && c != '\n')).dedup) [] with
  | .error e => .error e
  | .ok d => .ok { dict := d, bboxes := bboxes }

/-- `Font.letter_variation`: dict lookup (`KeyError` when absent), then
`random.choice` over the variation list (`IndexError` when empty; the random
draw is modelled by the index `k`), then bounding-box lookup (`KeyError`). -/
def Font.letter_variation (f : Font) (k : Nat) (c : Char) : Except PyErr LetterVariation :=
  match List.lookup c f.dict with
  | none => .error .keyError
  | some imgs =>
    match imgs with
    | [] => .error .indexError
    | i0 :: _ =>
      match List.lookup c f.bboxes with
      | none => .error .keyError
      | some bb => .ok { char := c, image := imgs.getD (k % imgs.length) i0, bbox := bb }

/-- The inner maxima of `Font.line_height`: the maximum variation height per
letter, in catalog order (`ValueError` when some letter has no variations). -/
def heightsPerLetter : List (Char × List Img) → Except PyErr (List Nat)
  | [] => .ok []
  | (_, vars) :: rest =>
    match pyMaxNat (vars.map Img.height) with
    | .error e => .error e
    | .ok m =>
      match heightsPerLetter rest with
      | .error e => .error e
      | .ok t => .ok (m :: t)

/-- `Font.line_height`: the maximum image height across all loaded variations of
all loaded characters (`ValueError` when the catalog is empty). -/
def Font.line_height (f : Font) : Except PyErr Nat :=
  match heightsPerLetter f.dict with
  | .error e => .error e
  | .ok hs => pyMaxNat hs

/-- The per-letter maxima of variation widths built first in
`_estimate_biggest_canvas_size` (`max_letter_widths`), in catalog order
(`ValueError` when a letter has no variations). -/
def maxLetterWidths : List (Char × List Img) → Except PyErr (List (Char × Nat))
  | [] => .ok []
  | (c, vars) :: rest =>
    match pyMaxNat (vars.map Img.width) with
    | .error e => .error e
    | .ok m =>
      match maxLetterWidths rest with
      | .error e => .error e
      | .ok t => .ok ((c, m) :: t)

/-- The table lookup `max_letter_widths[char]` (`KeyError` when absent). -/
def pyLookupNat (tbl : List (Char × Nat)) (c : Char) : Except PyErr Nat :=
  match List.lookup c tbl with
  | some w => .ok w
  | none => .error .keyError

/-- `sum(map(lambda char: max_letter_widths[char], line))` over one line. -/
def lineWidthSum (tbl : List (Char × Nat)) : List Char → Except PyErr Nat
  | [] => .ok 0
  | c :: rest =>
    match pyLookupNat tbl c with
    | .error e => .error e
    | .ok w =>
      match lineWidthSum tbl rest with
      | .error e => .error e
      | .ok t => .ok (w + t)

/-- The per-line sums of `_estimate_biggest_canvas_size`: each line has its
spaces removed (`line.replace(" ", "")`) before summing the per-letter maxima. -/
def lineSums (tbl : List (Char × Nat)) : List (List Char) → Except PyErr (List Nat)
  | [] => .ok []
  | line :: rest =>
    match lineWidthSum tbl (line.filter (fun c => c != ' ')) with
    | .error e => .error e
    | .ok s =>
      match lineSums tbl rest with
      | .error e => .error e
      | .ok t => .ok (s :: t)

/-- `_estimate_biggest_canvas_size`, translated from `__init__.py`: width is the
maximum per-line sum of maximum letter widths plus 200, height is
`line_height() * text.count newline * 2 + 200`. -/
def estimate_biggest_canvas_size (font : Font) (text : List Char) :
    Except PyErr (Nat × Nat) :=
  match maxLetterWidths font.dict with
  | .error e => .error e
  | .ok tbl =>
    match lineSums tbl (pySplit '\n' text) with
    | .error e => .error e
    | .ok sums =>
      match pyMaxNat sums with
      | .error e => .error e
      | .ok max_canvas_width =>
        match font.line_height with
        | .error e => .error e
        | .ok lh =>
          .ok (max_canvas_width + 200, lh * (text.count '\n') * 2 + 200)

/-- `_get_canvas_bg`: opaque white when debugging, transparent white otherwise. -/
def get_canvas_bg (debug : Bool) : Nat × Nat × Nat × Nat :=
  (255, 255, 255, if debug then 255 else 0)

/-- The mutable layout state threaded through `_draw_char`, together with the
record of canvas side effects: glyph paste positions, connector segments drawn
by `drawer.line(...)` in `_draw_char`, and debug overlay lines drawn by
`_draw_debug_lines`.  The canvas width is stored because the first debug
overlay line spans it. -/
structure DrawState where
  canvasWidth : Nat
  cursor : ℤ × ℤ
  baseline_y : Option ℤ
  connection_start : Option Coordinates
  pastes : List Coordinates
  connectors : List (Coordinates × Coordinates)
  overlays : List (List ℚ)
deriving DecidableEq, Repr

/-- `DrawingContext.insert_space`: advance the cursor x by 60 and clear the
pending connection start; everything else (cursor y, baseline, canvas) untouched. -/
def insert_space (s : DrawState) : DrawState :=
  { s with cursor := (s.cursor.1 + 60, s.cursor.2), connection_start := none }

/-- `DrawingContext.insert_newline`: reset cursor x to 100, advance cursor y by
the font's line height, clear the baseline and the pending connection. -/
def insert_newline (s : DrawState) (lh : Nat) : DrawState :=
  { s with cursor := (100, s.cursor.2 + (lh : ℤ)), baseline_y := none,
           connection_start := none }

/-- `_add_coords` from `__init__.py`. -/
def add_coords (i j : Coordinates) : Coordinates := (i.1 + j.1, i.2 + j.2)

/-- `_get_variation_start_coords`: `start_x = cursor.x - bbox.start_x * width`;
when the baseline is unset it is fixed to `int(cursor.y + bbox.baseline_y *
height)`; `start_y = baseline - height * bbox.baseline_y`; both returned
truncated with Python `int()`. -/
def get_variation_start_coords (s : DrawState) (lv : LetterVariation) :
    Coordinates × DrawState :=
  let start_x : ℚ := (s.cursor.1 : ℚ) - lv.bbox.start_x * (lv.image.width : ℚ)
  match s.baseline_y with
  | none =>
    let b := pyInt ((s.cursor.2 : ℚ) + lv.bbox.baseline_y * (lv.image.height : ℚ))
    let start_y : ℚ := (b : ℚ) - (lv.image.height : ℚ) * lv.bbox.baseline_y
    ((pyInt start_x, pyInt start_y), { s with baseline_y := some b })
  | some b =>
    let start_y : ℚ := (b : ℚ) - (lv.image.height : ℚ) * lv.bbox.baseline_y
    ((pyInt start_x, pyInt start_y), s)

/-- `_draw_debug_lines`: the debug overlay strokes (a full-width red line at the
first glyph's bottom edge, a red line at the glyph's right bounding edge, and
two blue lines of the nominal bounding rectangle). -/
def draw_debug_lines (s : DrawState) (char_n : Nat) (lv : LetterVariation)
    (sc : Coordinates) : DrawState :=
  let start_x := sc.1
  let start_y := sc.2
  let end_x : ℚ := (start_x : ℚ) + (lv.image.width : ℚ) * lv.bbox.end_x
  let end_y : ℤ := start_y + (lv.image.height : ℤ)
  let first : List (List ℚ) :=
    if char_n = 0 then [[0, (end_y : ℚ), (s.canvasWidth : ℚ), (end_y : ℚ)]] else []
  { s with overlays := s.overlays ++ first ++
      [[end_x, (end_y : ℚ), end_x, ((end_y - (lv.image.height : ℤ)) : ℚ)],
       [(start_x : ℚ), (end_y : ℚ), (start_x : ℚ), ((end_y - (lv.image.height : ℤ)) : ℚ)],
       [(start_x : ℚ), (end_y : ℚ), end_x, (end_y : ℚ)]] }

/-- The second half of the `try` block of `_draw_char`: compute this glyph's
connection start point and store it (translated to canvas coordinates); an
`InvalidLetterInterconnectionError` is caught by the `except` clause, which
clears the pending connection; any other exception propagates. -/
def connection_update (s : DrawState) (lv : LetterVariation) (sc : Coordinates) :
    Except PyErr DrawState :=
  match lv.find_connection_start_coords with
  | .ok p => .ok { s with connection_start := some (add_coords p sc) }
  | .error .invalidLetterInterconnection => .ok { s with connection_start := none }
  | .error e => .error e

/-- The `try`/`except` block of `_draw_char`: when a connection start is
pending, compute the current glyph's connection end point and draw the red
connector segment (this happens whether or not debug mode is on); then store
this glyph's own connection start point.  `InvalidLetterInterconnectionError`
raised at either point is caught and clears the pending connection; side
effects already performed (the drawn segment) remain. -/
def draw_char_try (s : DrawState) (lv : LetterVariation) (sc : Coordinates) :
    Except PyErr DrawState :=
  match s.connection_start with
  | some cs =>
    match lv.find_connection_end_coords with
    | .ok e =>
      connection_update
        { s with connectors := s.connectors ++ [(cs, add_coords e sc)] } lv sc
    | .error .invalidLetterInterconnection => .ok { s with connection_start := none }
    | .error er => .error er
  | none => connection_update s lv sc

/-- `_draw_char`, translated from `__init__.py`: dispatch on space/newline,
otherwise select a variation, compute its start coordinates, paste the image at
`(round(start_x), round(start_y))` (both already integers, so `round` is the
identity), draw the debug overlays when debugging, advance the cursor x by
`int(width * (end_x - start_x))`, and run the connector block. -/
def draw_char (font : Font) (rand : Nat → Nat) (debug : Bool) (char_n : Nat)
    (c : Char) (s : DrawState) : Except PyErr DrawState :=
  if c = ' ' then .ok (insert_space s)
  else if c = '\n' then
    match font.line_height with
    | .error e => .error e
    | .ok lh => .ok (insert_newline s lh)
  else
    match font.letter_variation (rand char_n) c with
    | .error e => .error e
    | .ok lv =>
      let gv := get_variation_start_coords s lv
      let sc := gv.1
      let s1 := gv.2
      let width := pyInt ((lv.image.width : ℚ) * (lv.bbox.end_x - lv.bbox.start_x))
      let s2 := { s1 with pastes := s1.pastes ++ [sc] }
      let s3 := if debug then draw_debug_lines s2 char_n lv sc else s2
      let s4 := { s3 with cursor := (s3.cursor.1 + width, s3.cursor.2) }
      draw_char_try s4 lv sc

/-- The character loop of `draw`: `for char_n, char in enumerate(text)`. -/
def drawLoop (font : Font) (rand : Nat → Nat) (debug : Bool) :
    List Char → Nat → DrawState → Except PyErr DrawState
  | [], _, s => .ok s
  | c :: rest, n, s =>
    match draw_char font rand debug n c s with
    | .error e => .error e
    | .ok s1 => drawLoop font rand debug rest (n + 1) s1

/-- The value returned by `draw`: the canvas (its size, background, pasted
glyphs and drawn lines) together with the final layout state.  The final
state's cursor is also the value the shared class attribute
`DrawingContext.cursor` holds after the call. -/
structure DrawResult where
  size : Nat × Nat
  bg : Nat × Nat × Nat × Nat
  final : DrawState
deriving DecidableEq, Repr

/-- `draw`, translated from `__init__.py`.  `cursor0` is the value of the class
attribute `DrawingContext.cursor` when the call begins: because the source
declares `cursor = [100, 100]` without a type annotation, it is a single class
attribute list shared by every `DrawingContext` instance, so each call starts
from wherever the previous call left the cursor.  The instance fields
`baseline_y` and `connection_start` are genuine dataclass fields and start
fresh (`None`) on every call. -/
def draw (font : Font) (rand : Nat → Nat) (text : List Char) (debug : Bool)
    (cursor0 : ℤ × ℤ) : Except PyErr DrawResult :=
  match estimate_biggest_canvas_size font text with
  | .error e => .error e
  | .ok size =>
    let s0 : DrawState :=
      { canvasWidth := size.1, cursor := cursor0, baseline_y := none,
        connection_start := none, pastes := [], connectors := [], overlays := [] }
    match drawLoop font rand debug text 0 s0 with
    | .error e => .error e
    | .ok s => .ok { size := size, bg := get_canvas_bg debug, final := s }

/-- Projection of an `Except` to the error it carries, if any. -/
def exceptErr {α : Type} : Except PyErr α → Option PyErr
  | .error e => some e
  | .ok _ => none

/-- Claim-side placement rule, following claim C5's words literally: the exact
(unrounded) `start_x = cursor.x - bbox.start_x * width`; the baseline, when
unset, fixed to the exact `cursor.y + bbox.baseline_y * height`; the exact
`start_y = baseline - height * bbox.baseline_y`; and the composite position
`(round(start_x), round(start_y))`.  Returns the composite position and the
baseline value the claim prescribes. -/
def claimC5_composite (cursor : ℤ × ℤ) (baseline : Option ℚ) (lv : LetterVariation) :
    Coordinates × ℚ :=
  let start_x : ℚ := (cursor.1 : ℚ) - lv.bbox.start_x * (lv.image.width : ℚ)
  let b : ℚ :=
    match baseline with
    | none => (cursor.2 : ℚ) + lv.bbox.baseline_y * (lv.image.height : ℚ)
    | some b0 => b0
  let start_y : ℚ := b - (lv.image.height : ℚ) * lv.bbox.baseline_y
  ((pyRound start_x, pyRound start_y), b)

/-- Spec-side (claim C7) maximum variation image width for a character. -/
def spec_max_letter_width (font : Font) (c : Char) : Nat :=
  (((List.lookup c font.dict).getD []).map Img.width).foldl Nat.max 0

/-- Spec-side (claim C7) width of one line: the sum, over the line's characters
with spaces removed, of the maximum variation image width per character. -/
def spec_line_width (font : Font) (line : List Char) : Nat :=
  ((line.filter (fun c => c != ' ')).map (spec_max_letter_width font)).sum

/-- Spec-side (claim C7) maximal line width: the maximum of `spec_line_width`
over the lines of the text (text split on newline). -/
def spec_max_width (font : Font) (text : List Char) : Nat :=
  ((pySplit '\n' text).map (spec_line_width font)).foldl Nat.max 0

/-- A 1-by-1 fully inky image: its single pixel is black (L = 0) and opaque. -/
def inkImg : Img :=
  { width := 1, height := 1, pixL := fun _ _ => 0, pixNonzero := fun _ _ => true }

/-- Bounding box of the test letter: full advance, baseline at the bottom,
`far_right` connection strategy. -/
def bbox_a : BoundingBox :=
  { start_x := 0, end_x := 1, baseline_y := 1, connection_start := some .far_right }

/-- A font whose single letter `a` has one inky 1-by-1 variation. -/
def font_a : Font := { dict := [('a', [inkImg])], bboxes := [('a', bbox_a)] }

/-- Bounding box that declares no connection strategy. -/
def bbox_nostrat : BoundingBox :=
  { start_x := 0, end_x := 1, baseline_y := 1, connection_start := none }

/-- A font whose letter `a` declares no connection strategy. -/
def font_nostrat : Font := { dict := [('a', [inkImg])], bboxes := [('a', bbox_nostrat)] }

/-- The letter variation `Font.letter_variation` selects for `a` in `font_nostrat`. -/
def lv_nostrat : LetterVariation := { char := 'a', image := inkImg, bbox := bbox_nostrat }

/-- Bounding box with fractional `start_x` and `baseline_y` (`3/10`), chosen so
that Python `int()` truncation and `round()` disagree on the placement. -/
def bbox_frac : BoundingBox :=
  { start_x := 3/10, end_x := 1, baseline_y := 3/10, connection_start := some .far_right }

/-- A font whose letter `a` carries the fractional bounding box `bbox_frac`. -/
def font_frac : Font := { dict := [('a', [inkImg])], bboxes := [('a', bbox_frac)] }

/-- The letter variation selected for `a` in `font_frac`. -/
def lv_frac : LetterVariation := { char := 'a', image := inkImg, bbox := bbox_frac }

/-- Bounding box whose visual advance `end_x - start_x = 1/2` is fractional. -/
def bbox_half : BoundingBox :=
  { start_x := 0, end_x := 1/2, baseline_y := 1, connection_start := some .far_right }

/-- A font whose letter `a` carries the half-advance bounding box `bbox_half`. -/
def font_half : Font := { dict := [('a', [inkImg])], bboxes := [('a', bbox_half)] }

/-- A fresh `DrawState` as `draw` builds it: given canvas width and the incoming
shared cursor, with baseline and connection unset and no side effects recorded. -/
def fresh_state (cw : Nat) (cursor0 : ℤ × ℤ) : DrawState :=
  { canvasWidth := cw, cursor := cursor0, baseline_y := none,
    connection_start := none, pastes := [], connectors := [], overlays := [] }

/-- A deterministic stand-in for the random variation choice: always index 0. -/
def rand0 : Nat → Nat := fun _ => 0

/-- A filesystem with no PNG files in any asset directory. -/
def fs_empty : String → List Img := fun _ => []

/-- Claim C1 (refuted by the code): the layout state does NOT start fresh on
every `draw` call.  `DrawingContext` declares `cursor = [100, 100]` without a
type annotation, so the cursor is a single class-attribute list shared by every
instance; `draw` therefore begins at whatever cursor the previous call left.
Here a first call `draw(font_a, "a")` starting from the pristine cursor
`(100, 100)` leaves the shared cursor at `(101, 100)`, so a second identical
call begins at `(101, 100)`, not `(100, 100)`, and pastes its glyph one pixel
further right than the first call did. -/
theorem C1_shared_cursor_leaks_across_calls :
    (draw font_a rand0 ['a'] false (100, 100)).map (fun r => (r.final.cursor, r.final.pastes))
      = .ok ((101, 100), [(100, 100)]) ∧
    (draw font_a rand0 ['a'] false (101, 100)).map (fun r => (r.final.cursor, r.final.pastes))
      = .ok ((102, 100), [(101, 100)]) ∧
    ((101, 100) : ℤ × ℤ) ≠ (100, 100) :=
  ⟨by with_unfolding_all rfl, by with_unfolding_all rfl, by decide⟩

/-- Claim C2 (refuted by the code): an error arising while computing a
connector start point can escape `draw`.  For the alphabetic letter `a` whose
bounding box declares no `connection_start` strategy,
`find_connection_start_coords` raises `UnboundLocalError`, which the
`except InvalidLetterInterconnectionError` clause of `_draw_char` does not
catch, so it propagates out of `draw` to the caller. -/
theorem C2_point_computation_error_escapes_draw :
    draw font_nostrat rand0 ['a'] false (100, 100) = .error .unboundLocal ∧
    py_isalpha 'a' = true :=
  ⟨by with_unfolding_all rfl, rfl⟩

/-- Claim C3 (refuted by the code): `Font.load` does NOT fail when a required
character has zero available variation images.  The source's guard reads
`if not letters_images:` — testing the whole dict, which is always non-empty
right after the current letter's (empty) list was inserted — instead of
`if not letters_images[letter]:`.  With a filesystem holding no images at all,
loading for the text `"a"` succeeds and returns a catalog in which `a` has zero
variations; rendering then fails mid-render, when `letter_variation` runs
`random.choice` on the empty list (`IndexError`). -/
theorem C3_load_succeeds_with_zero_variations :
    (Font.load fs_empty [] ['a']).map (fun f => f.dict.map (fun p => (p.1, p.2.length)))
      = .ok [('a', 0)] ∧
    (Font.letter_variation { dict := [('a', [])], bboxes := [] } 0 'a').map (fun _ => ())
      = .error .indexError :=
  ⟨rfl, rfl⟩

/-- Claim C4 (refuted by the code): for an alphabetic character whose bounding
box declares no `connection_start` strategy, `find_connection_start_coords`
raises `UnboundLocalError` (the `if`/`elif` chain assigns neither
`connection_x` nor `connection_y` and the final `return` reads unbound locals)
instead of the `InvalidLetterInterconnectionError` the claim prescribes. -/
theorem C4_no_strategy_raises_unbound_local :
    lv_nostrat.find_connection_start_coords = .error .unboundLocal ∧
    py_isalpha lv_nostrat.char = true ∧
    lv_nostrat.bbox.connection_start = none :=
  ⟨rfl, rfl, rfl⟩

/-- Claim C5, counterexample: the code composites at Python `int()` truncations,
not at `(round(start_x), round(start_y))` of the exact placement values.  With
`cursor = (100, 100)`, a 1-by-1 image and `bbox.start_x = bbox.baseline_y =
3/10`, the exact `start_x` is `99.7`: the claim's composite position is
`(100, 100)` while the code pastes at `(99, 99)`. -/
theorem C5_truncation_differs_from_round :
    (draw_char font_frac rand0 false 0 'a' (fresh_state 0 (100, 100))).map (fun s => s.pastes)
      = .ok [(99, 99)] ∧
    (claimC5_composite (100, 100) none lv_frac).1 = (100, 100) ∧
    ((99, 99) : Coordinates) ≠ ((100, 100) : Coordinates) :=
  ⟨by with_unfolding_all rfl, by with_unfolding_all rfl, by decide⟩

/-- Claim C6, counterexample: connector line segments are drawn even with the
debug flag off.  The `drawer.line(...)` call for the connector in `_draw_char`
is not guarded by `context.debug`: rendering `"aa"` with `debug = False` draws
exactly one red connector segment onto the canvas. -/
theorem C6_connector_drawn_without_debug :
    (draw font_a rand0 ['a', 'a'] false (100, 100)).map (fun r => r.final.connectors.length)
      = .ok 1 := by
  with_unfolding_all rfl

/-- Claim C8, counterexample: the cursor advance is `int(width * (end_x -
start_x))`, truncated, not the exact visual advance width.  With a 1-pixel-wide
image and `end_x - start_x = 1/2` the claimed advance is `1/2`, but the code
advances the cursor by `int(0.5) = 0`: the cursor x does not change at all. -/
theorem C8_advance_truncated :
    (draw_char font_half rand0 false 0 'a' (fresh_state 0 (100, 100))).map (fun s => s.cursor)
      = .ok (100, 100) ∧
    ((100 - 100 : ℤ) : ℚ) ≠ (inkImg.width : ℚ) * (bbox_half.end_x - bbox_half.start_x) :=
  ⟨by with_unfolding_all rfl, by with_unfolding_all decide⟩

/-- The connector block's second half only touches `connection_start`: every
other component of the state is returned unchanged when no exception escapes. -/
theorem connection_update_ok (s : DrawState) (lv : LetterVariation) (sc : Coordinates)
    (s' : DrawState) (h : connection_update s lv sc = .ok s') :
    s'.canvasWidth = s.canvasWidth ∧ s'.cursor = s.cursor ∧ s'.baseline_y = s.baseline_y ∧
    s'.pastes = s.pastes ∧ s'.connectors = s.connectors ∧ s'.overlays = s.overlays := by
  unfold connection_update at h
  split at h <;> simp_all
  all_goals subst h
  all_goals simp

/-- The whole `try`/`except` connector block leaves the cursor, baseline,
pastes and overlays unchanged when no exception escapes (it may append a
connector segment and reassign `connection_start`). -/
theorem draw_char_try_ok (s : DrawState) (lv : LetterVariation) (sc : Coordinates)
    (s' : DrawState) (h : draw_char_try s lv sc = .ok s') :
    s'.canvasWidth = s.canvasWidth ∧ s'.cursor = s.cursor ∧ s'.baseline_y = s.baseline_y ∧
    s'.pastes = s.pastes ∧ s'.overlays = s.overlays := by
  unfold draw_char_try at h
  split at h
  · split at h
    · have := connection_update_ok _ _ _ _ h
      simp_all
    · simp_all
      subst h
      simp
    · simp_all
  · have := connection_update_ok _ _ _ _ h
    simp_all

/-- Claim C5 as amended: placement uses Python `int()` truncation throughout.
For a glyph character, `_draw_char` pastes the image at
`(int(cursor.x - bbox.start_x * width), int(baseline - height * bbox.baseline_y))`,
where the line's baseline is fixed by the first glyph of the line as
`int(cursor.y + bbox.baseline_y * height)` and is never re-anchored by later
glyphs; the real-valued `start_y = baseline - height * baseline_y` satisfies
`start_y + baseline_y * height = baseline` exactly.  (`round` is applied by the
source only to the already-truncated integers, so the composite position is
the truncation, not the rounding, of the exact values.) -/
theorem C5_amended_truncated_placement (font : Font) (rand : Nat → Nat) (debug : Bool)
    (char_n : Nat) (c : Char) (s s' : DrawState) (lv : LetterVariation)
    (hsp : c ≠ ' ') (hnl : c ≠ '\n')
    (hlv : font.letter_variation (rand char_n) c = .ok lv)
    (h : draw_char font rand debug char_n c s = .ok s') :
    ∃ b : ℤ,
      s'.baseline_y = some b ∧
      (s.baseline_y = none →
        b = pyInt ((s.cursor.2 : ℚ) + lv.bbox.baseline_y * (lv.image.height : ℚ))) ∧
      (∀ b0, s.baseline_y = some b0 → b = b0) ∧
      s'.pastes = s.pastes ++
        [(pyInt ((s.cursor.1 : ℚ) - lv.bbox.start_x * (lv.image.width : ℚ)),
          pyInt ((b : ℚ) - (lv.image.height : ℚ) * lv.bbox.baseline_y))] ∧
      ((b : ℚ) - (lv.image.height : ℚ) * lv.bbox.baseline_y)
          + lv.bbox.baseline_y * (lv.image.height : ℚ) = (b : ℚ) := by
  rw [draw_char, if_neg hsp, if_neg hnl, hlv] at h
  cases hbl : s.baseline_y with
  | none =>
    simp only [get_variation_start_coords, hbl] at h
    obtain ⟨hcw, hcur, hb, hp, ho⟩ := draw_char_try_ok _ _ _ _ h
    refine ⟨pyInt ((s.cursor.2 : ℚ) + lv.bbox.baseline_y * (lv.image.height : ℚ)),
      ?_, fun _ => rfl, ?_, ?_, by ring⟩
    · cases debug <;> simp_all [draw_debug_lines]
    · exact fun b0 hb0 => Option.noConfusion hb0
    · cases debug <;> simp_all [draw_debug_lines]
  | some b =>
    simp only [get_variation_start_coords, hbl] at h
    obtain ⟨hcw, hcur, hb, hp, ho⟩ := draw_char_try_ok _ _ _ _ h
    refine ⟨b, ?_, ?_, ?_, ?_, by ring⟩
    · cases debug <;> simp_all [draw_debug_lines]
    · exact fun hnone => Option.noConfusion hnone
    · exact fun b0 hb0 => Option.some.inj hb0
    · cases debug <;> simp_all [draw_debug_lines]

/-- Claim C8 as amended: after placing a glyph character the cursor x has
increased by exactly `int(image.width * (bbox.end_x - bbox.start_x))` — the
glyph's visual advance width truncated by Python `int()` — and the cursor y is
unchanged. -/
theorem C8_amended_truncated_advance (font : Font) (rand : Nat → Nat) (debug : Bool)
    (char_n : Nat) (c : Char) (s s' : DrawState) (lv : LetterVariation)
    (hsp : c ≠ ' ') (hnl : c ≠ '\n')
    (hlv : font.letter_variation (rand char_n) c = .ok lv)
    (h : draw_char font rand debug char_n c s = .ok s') :
    s'.cursor.1 = s.cursor.1 +
      pyInt ((lv.image.width : ℚ) * (lv.bbox.end_x - lv.bbox.start_x)) ∧
    s'.cursor.2 = s.cursor.2 := by
  rw [draw_char, if_neg hsp, if_neg hnl, hlv] at h
  cases hbl : s.baseline_y with
  | none =>
    simp only [get_variation_start_coords, hbl] at h
    obtain ⟨_, hc, _, _, _⟩ := draw_char_try_ok _ _ _ _ h
    cases debug <;> simp_all [draw_debug_lines]
  | some b =>
    simp only [get_variation_start_coords, hbl] at h
    obtain ⟨_, hc, _, _, _⟩ := draw_char_try_ok _ _ _ _ h
    cases debug <;> simp_all [draw_debug_lines]

/-- The layout state `_draw_char` produces for the letter `a` of `font_frac`
drawn on a fresh state with cursor `(100, 100)`. -/
def c5_result : DrawState :=
  { canvasWidth := 0, cursor := (100, 100), baseline_y := some 100,
    connection_start := some (100, 99), pastes := [(99, 99)],
    connectors := [], overlays := [] }

/-- Witness for the amended claim C5 at a concrete input: drawing `a` of
`font_frac` on a fresh state pastes at the truncated coordinates `(99, 99)`
and fixes the baseline to `int(100 + 3/10) = 100`. -/
theorem C5_amended_truncated_placement_witness :
    draw_char font_frac rand0 false 0 'a' (fresh_state 0 (100, 100)) = .ok c5_result ∧
    ∃ b : ℤ,
      c5_result.baseline_y = some b ∧
      ((fresh_state 0 (100, 100)).baseline_y = none →
        b = pyInt (((fresh_state 0 (100, 100)).cursor.2 : ℚ) +
          lv_frac.bbox.baseline_y * (lv_frac.image.height : ℚ))) ∧
      (∀ b0, (fresh_state 0 (100, 100)).baseline_y = some b0 → b = b0) ∧
      c5_result.pastes = (fresh_state 0 (100, 100)).pastes ++
        [(pyInt (((fresh_state 0 (100, 100)).cursor.1 : ℚ) -
            lv_frac.bbox.start_x * (lv_frac.image.width : ℚ)),
          pyInt ((b : ℚ) - (lv_frac.image.height : ℚ) * lv_frac.bbox.baseline_y))] ∧
      ((b : ℚ) - (lv_frac.image.height : ℚ) * lv_frac.bbox.baseline_y)
          + lv_frac.bbox.baseline_y * (lv_frac.image.height : ℚ) = (b : ℚ) :=
  ⟨by with_unfolding_all rfl,
   C5_amended_truncated_placement font_frac rand0 false 0 'a' (fresh_state 0 (100, 100))
     c5_result lv_frac (by decide) (by decide) (by with_unfolding_all rfl)
     (by with_unfolding_all rfl)⟩

/-- The letter variation selected for `a` in `font_half`. -/
def lv_half : LetterVariation := { char := 'a', image := inkImg, bbox := bbox_half }

/-- The layout state `_draw_char` produces for the letter `a` of `font_half`
drawn on a fresh state with cursor `(100, 100)`. -/
def c8_result : DrawState :=
  { canvasWidth := 0, cursor := (100, 100), baseline_y := some 101,
    connection_start := some (101, 100), pastes := [(100, 100)],
    connectors := [], overlays := [] }

/-- Witness for the amended claim C8 at a concrete input: drawing `a` of
`font_half` advances the cursor x by `int(1 * (1/2 - 0)) = 0` and leaves the
cursor y unchanged. -/
theorem C8_amended_truncated_advance_witness :
    draw_char font_half rand0 false 0 'a' (fresh_state 0 (100, 100)) = .ok c8_result ∧
    (c8_result.cursor.1 = (fresh_state 0 (100, 100)).cursor.1 +
        pyInt ((lv_half.image.width : ℚ) * (lv_half.bbox.end_x - lv_half.bbox.start_x)) ∧
      c8_result.cursor.2 = (fresh_state 0 (100, 100)).cursor.2) :=
  ⟨by with_unfolding_all rfl,
   C8_amended_truncated_advance font_half rand0 false 0 'a' (fresh_state 0 (100, 100))
     c8_result lv_half (by decide) (by decide) (by with_unfolding_all rfl)
     (by with_unfolding_all rfl)⟩

/-- The per-letter maximum-width table `_estimate_biggest_canvas_size` builds,
expressed as a total map (this is what `maxLetterWidths` returns on success). -/
def widthTable (font : Font) : List (Char × Nat) :=
  font.dict.map (fun p => (p.1, (p.2.map Img.width).foldl Nat.max 0))

/-- Python `max()` of a non-empty list of naturals is the `Nat.max` fold from 0. -/
theorem pyMaxNat_ok (l : List Nat) (m : Nat) (h : pyMaxNat l = .ok m) :
    m = l.foldl Nat.max 0 := by
  cases l with
  | nil => cases h
  | cons a t =>
    injection h with h
    subst h
    simp [List.foldl, Nat.zero_max]

/-- When `maxLetterWidths` succeeds it returns exactly the width table. -/
theorem maxLetterWidths_ok (l : List (Char × List Img)) (tbl : List (Char × Nat))
    (h : maxLetterWidths l = .ok tbl) :
    tbl = l.map (fun p => (p.1, (p.2.map Img.width).foldl Nat.max 0)) := by
  induction l generalizing tbl with
  | nil =>
    injection h with h
    subst h
    rfl
  | cons p rest ih =>
    obtain ⟨c, vars⟩ := p
    unfold maxLetterWidths at h
    cases hm : pyMaxNat (vars.map Img.width) with
    | error e => rw [hm] at h; cases h
    | ok m =>
      rw [hm] at h
      cases hr : maxLetterWidths rest with
      | error e => rw [hr] at h; cases h
      | ok t =>
        rw [hr] at h
        injection h with h
        subst h
        simp [ih t hr, pyMaxNat_ok _ _ hm]

/-- Looking a key up in a key-preserving value-mapped association list. -/
theorem lookup_map_value {β γ : Type} (f : β → γ) (l : List (Char × β)) (c : Char) :
    List.lookup c (l.map (fun p => (p.1, f p.2))) = (List.lookup c l).map f := by
  induction l with
  | nil => rfl
  | cons p rest ih =>
    obtain ⟨a, b⟩ := p
    by_cases hc : c = a
    · have hb : (c == a) = true := by simp [hc]
      simp [List.lookup, hb]
    · have hb : (c == a) = false := by simp [hc]
      simp [List.lookup, hb, ih]

/-- The width-table lookup is the catalog lookup mapped through the
per-letter maximum width. -/
theorem lookup_widthTable (font : Font) (c : Char) :
    List.lookup c (widthTable font) =
      (List.lookup c font.dict).map (fun vars => (vars.map Img.width).foldl Nat.max 0) := by
  unfold widthTable
  exact lookup_map_value (fun vars => (vars.map Img.width).foldl Nat.max 0) font.dict c

/-- A successful per-line sum over the width table is the spec-side sum of
per-character maximum widths. -/
theorem lineWidthSum_ok (font : Font) (l : List Char) (n : Nat)
    (h : lineWidthSum (widthTable font) l = .ok n) :
    n = (l.map (spec_max_letter_width font)).sum := by
  induction l generalizing n with
  | nil =>
    injection h with h
    subst h
    rfl
  | cons c rest ih =>
    unfold lineWidthSum pyLookupNat at h
    rw [lookup_widthTable] at h
    cases hlk : List.lookup c font.dict with
    | none => rw [hlk] at h; cases h
    | some vars =>
      rw [hlk] at h
      cases hr : lineWidthSum (widthTable font) rest with
      | error e => rw [hr] at h; cases h
      | ok t =>
        rw [hr] at h
        injection h with h
        subst h
        simp [spec_max_letter_width, hlk, ih t hr]

/-- A successful run of the per-line sums is the spec-side list of line widths. -/
theorem lineSums_ok (font : Font) (lines : List (List Char)) (sums : List Nat)
    (h : lineSums (widthTable font) lines = .ok sums) :
    sums = lines.map (spec_line_width font) := by
  induction lines generalizing sums with
  | nil =>
    injection h with h
    subst h
    rfl
  | cons line rest ih =>
    unfold lineSums at h
    cases hw : lineWidthSum (widthTable font) (line.filter (fun c => c != ' ')) with
    | error e => rw [hw] at h; cases h
    | ok s0 =>
      rw [hw] at h
      cases hr : lineSums (widthTable font) rest with
      | error e => rw [hr] at h; cases h
      | ok t =>
        rw [hr] at h
        injection h with h
        subst h
        simp [spec_line_width, lineWidthSum_ok font _ _ hw, ih t hr]

/-- Claim C7 (confirmed): whenever the canvas size estimator returns a size,
the width is the maximum over lines (text split on newline, spaces removed) of
the summed per-character maximum variation widths, plus 200; the height is
`line_height * (number of newlines) * 2 + 200`; in particular a text without a
newline always gets height exactly 200, regardless of glyph heights. -/
theorem C7_canvas_size_formula (font : Font) (text : List Char) (w h lh : Nat)
    (hest : estimate_biggest_canvas_size font text = .ok (w, h))
    (hlh : font.line_height = .ok lh) :
    w = spec_max_width font text + 200 ∧
    h = lh * (text.count '\n') * 2 + 200 ∧
    (text.count '\n' = 0 → h = 200) := by
  unfold estimate_biggest_canvas_size at hest
  split at hest
  · cases hest
  rename_i tbl htbl
  split at hest
  · cases hest
  rename_i sums hsums
  split at hest
  · cases hest
  rename_i mw hmax
  split at hest
  · cases hest
  rename_i lh2 hlh2
  rw [hlh2] at hlh
  injection hlh with hlh
  subst hlh
  have htbl2 : tbl = widthTable font := maxLetterWidths_ok _ _ htbl
  subst htbl2
  injection hest with hest
  rw [Prod.mk.injEq] at hest
  obtain ⟨hw, hh⟩ := hest
  have hmw : mw = spec_max_width font text := by
    rw [pyMaxNat_ok _ _ hmax, lineSums_ok font _ _ hsums, spec_max_width]
  refine ⟨by rw [← hw, hmw], by rw [← hh], fun hc => by rw [← hh, hc]; ring⟩

/-- Witness for claim C7 at a concrete input: for `font_a` and the text `"a"`
the estimator returns `(201, 200)` and the formulas hold with line height 1
and zero newlines. -/
theorem C7_canvas_size_formula_witness :
    estimate_biggest_canvas_size font_a ['a'] = .ok (201, 200) ∧
    font_a.line_height = .ok 1 ∧
    (201 = spec_max_width font_a ['a'] + 200 ∧
      200 = 1 * (List.count '\n' ['a']) * 2 + 200 ∧
      (List.count '\n' ['a'] = 0 → 200 = 200)) :=
  ⟨by with_unfolding_all rfl, by with_unfolding_all rfl,
   C7_canvas_size_formula font_a ['a'] 201 200 1 (by with_unfolding_all rfl)
     (by with_unfolding_all rfl)⟩

/-- `pySplit` never returns an empty list of lines. -/
theorem pySplit_ne_nil (sep : Char) (text : List Char) : pySplit sep text ≠ [] := by
  cases text with
  | nil => simp [pySplit]
  | cons c rest =>
    unfold pySplit
    cases h : pySplit sep rest with
    | nil => simp
    | cons line more => by_cases hc : c = sep <;> simp [hc]

/-- Every character of every line produced by `pySplit` occurs in the original
text and is not the separator. -/
theorem pySplit_mem (sep : Char) (text : List Char) (line : List Char)
    (hl : line ∈ pySplit sep text) (c : Char) (hc : c ∈ line) :
    c ∈ text ∧ c ≠ sep := by
  induction text generalizing line with
  | nil =>
    simp [pySplit] at hl
    subst hl
    simp at hc
  | cons d rest ih =>
    unfold pySplit at hl
    cases hr : pySplit sep rest with
    | nil => exact absurd hr (pySplit_ne_nil sep rest)
    | cons line0 more =>
      simp only [hr] at hl
      by_cases hd : d = sep
      · rw [if_pos hd] at hl
        rcases List.mem_cons.mp hl with h1 | h1
        · subst h1; simp at hc
        · have hm := ih line (by rw [hr]; exact h1) hc
          exact ⟨List.mem_cons_of_mem d hm.1, hm.2⟩
      · rw [if_neg hd] at hl
        rcases List.mem_cons.mp hl with h1 | h1
        · subst h1
          rcases List.mem_cons.mp hc with h2 | h2
          · subst h2; exact ⟨List.mem_cons_self _ _, hd⟩
          · have hm := ih line0 (by rw [hr]; exact List.mem_cons_self _ _) h2
            exact ⟨List.mem_cons_of_mem d hm.1, hm.2⟩
        · have hm := ih line (by rw [hr]; exact List.mem_cons_of_mem _ h1) hc
          exact ⟨List.mem_cons_of_mem d hm.1, hm.2⟩

/-- When every line is all spaces, the per-line sums all evaluate to zero. -/
theorem lineSums_all_spaces (tbl : List (Char × Nat)) (lines : List (List Char))
    (h : ∀ line ∈ lines, line.filter (fun c => c != ' ') = []) :
    lineSums tbl lines = .ok (lines.map (fun _ => 0)) := by
  induction lines with
  | nil => rfl
  | cons line rest ih =>
    unfold lineSums
    rw [h line (List.mem_cons_self _ _), ih (fun l hl => h l (List.mem_cons_of_mem _ hl))]
    rfl

/-- Claim C10 (confirmed): for every text with no glyph characters (the empty
string, or only spaces and newlines), the loaded catalog is empty and `draw`
fails with an uncaught `ValueError` before placing anything: while the canvas
size is being estimated, `line_height` takes `max()` over the empty catalog,
so the exception surfaces before the character loop starts. -/
theorem C10_no_glyph_text_draw_fails (fs : String → List Img)
    (bboxes : List (Char × BoundingBox)) (text : List Char)
    (h : ∀ c ∈ text, c = ' ' ∨ c = '\n') :
    Font.load fs bboxes text = .ok { dict := [], bboxes := bboxes } ∧
    ∀ (rand : Nat → Nat) (debug : Bool) (cursor0 : ℤ × ℤ),
      draw { dict := [], bboxes := bboxes } rand text debug cursor0
        = .error .valueError := by
  have hfilter : text.filter (fun c => c != ' ' && c != '\n') = [] := by
    rw [List.filter_eq_nil_iff]
    intro a ha
    rcases h a ha with h1 | h1 <;> simp [h1]
  have hall : ∀ line ∈ pySplit '\n' text, line.filter (fun c => c != ' ') = [] := by
    intro line hline
    rw [List.filter_eq_nil_iff]
    intro a ha
    have hm := pySplit_mem '\n' text line hline a ha
    rcases h a hm.1 with h1 | h1
    · simp [h1]
    · exact absurd h1 hm.2
  have hest : estimate_biggest_canvas_size { dict := [], bboxes := bboxes } text
      = .error .valueError := by
    cases hsp : pySplit '\n' text with
    | nil => exact absurd hsp (pySplit_ne_nil '\n' text)
    | cons l0 r =>
      have hsums : lineSums ([] : List (Char × Nat)) (l0 :: r)
          = .ok ((l0 :: r).map (fun _ => 0)) :=
        lineSums_all_spaces [] (l0 :: r) (by rw [← hsp]; exact hall)
      unfold estimate_biggest_canvas_size
      simp only [maxLetterWidths, hsp, hsums, List.map_cons, pyMaxNat, Font.line_height,
        heightsPerLetter]
  constructor
  · unfold Font.load
    rw [hfilter]
    rfl
  · intro rand debug cursor0
    unfold draw
    rw [hest]

/-- Witness for claim C10 at a concrete input: the text of one space and one
newline loads an empty catalog and fails to render with a `ValueError`. -/
theorem C10_no_glyph_text_draw_fails_witness :
    Font.load fs_empty [] [' ', '\n'] = .ok { dict := [], bboxes := [] } ∧
    draw { dict := [], bboxes := [] } rand0 [' ', '\n'] false (100, 100)
      = .error .valueError :=
  ⟨(C10_no_glyph_text_draw_fails fs_empty [] [' ', '\n'] (by decide)).1,
   (C10_no_glyph_text_draw_fails fs_empty [] [' ', '\n'] (by decide)).2 rand0 false (100, 100)⟩

/-- The debug-independent observables of a layout state: everything except the
debug overlay strokes. -/
structure DrawObs where
  canvasWidth : Nat
  cursor : ℤ × ℤ
  baseline_y : Option ℤ
  connection_start : Option Coordinates
  pastes : List Coordinates
  connectors : List (Coordinates × Coordinates)
deriving DecidableEq, Repr

/-- Projection of a layout state to its debug-independent observables. -/
def DrawState.obs (s : DrawState) : DrawObs :=
  { canvasWidth := s.canvasWidth, cursor := s.cursor, baseline_y := s.baseline_y,
    connection_start := s.connection_start, pastes := s.pastes, connectors := s.connectors }

/-- `connection_update` commutes with the observables projection. -/
theorem connection_update_obs (lv : LetterVariation) (sc : Coordinates)
    (s1 s2 : DrawState) (h : s1.obs = s2.obs) :
    (connection_update s1 lv sc).map DrawState.obs
      = (connection_update s2 lv sc).map DrawState.obs := by
  obtain ⟨cw1, cur1, bl1, cs1, ps1, cn1, ov1⟩ := s1
  obtain ⟨cw2, cur2, bl2, cs2, ps2, cn2, ov2⟩ := s2
  simp only [DrawState.obs, DrawObs.mk.injEq] at h
  obtain ⟨h1, h2, h3, h4, h5, h6⟩ := h
  subst h1; subst h2; subst h3; subst h4; subst h5; subst h6
  unfold connection_update
  cases lv.find_connection_start_coords with
  | ok p => simp [Except.map, DrawState.obs]
  | error e => cases e <;> simp [Except.map, DrawState.obs]

/-- `draw_char_try` commutes with the observables projection. -/
theorem draw_char_try_obs (lv : LetterVariation) (sc : Coordinates)
    (s1 s2 : DrawState) (h : s1.obs = s2.obs) :
    (draw_char_try s1 lv sc).map DrawState.obs
      = (draw_char_try s2 lv sc).map DrawState.obs := by
  obtain ⟨cw1, cur1, bl1, cs1, ps1, cn1, ov1⟩ := s1
  obtain ⟨cw2, cur2, bl2, cs2, ps2, cn2, ov2⟩ := s2
  simp only [DrawState.obs, DrawObs.mk.injEq] at h
  obtain ⟨h1, h2, h3, h4, h5, h6⟩ := h
  subst h1; subst h2; subst h3; subst h4; subst h5; subst h6
  unfold draw_char_try
  cases cs1 with
  | none => exact connection_update_obs lv sc _ _ (by simp [DrawState.obs])
  | some cs =>
    cases lv.find_connection_end_coords with
    | ok e => exact connection_update_obs lv sc _ _ (by simp [DrawState.obs])
    | error er => cases er <;> simp [Except.map, DrawState.obs]

/-- `_draw_char` run with any two debug flags from states sharing the same
observables yields the same observables (the debug flag only adds overlays). -/
theorem draw_char_obs (font : Font) (rand : Nat → Nat) (d1 d2 : Bool) (char_n : Nat)
    (c : Char) (s1 s2 : DrawState) (h : s1.obs = s2.obs) :
    (draw_char font rand d1 char_n c s1).map DrawState.obs
      = (draw_char font rand d2 char_n c s2).map DrawState.obs := by
  obtain ⟨cw1, cur1, bl1, cs1, ps1, cn1, ov1⟩ := s1
  obtain ⟨cw2, cur2, bl2, cs2, ps2, cn2, ov2⟩ := s2
  simp only [DrawState.obs, DrawObs.mk.injEq] at h
  obtain ⟨h1, h2, h3, h4, h5, h6⟩ := h
  subst h1; subst h2; subst h3; subst h4; subst h5; subst h6
  by_cases hsp : c = ' '
  · simp [draw_char, hsp, insert_space, Except.map, DrawState.obs]
  by_cases hnl : c = '\n'
  · simp only [draw_char, hsp, hnl, if_true, if_false, ite_true, ite_false, if_neg,
      reduceIte]
    cases font.line_height <;> simp [insert_newline, Except.map, DrawState.obs, hsp, hnl]
  cases hlv : font.letter_variation (rand char_n) c with
  | error e => simp [draw_char, hsp, hnl, hlv, Except.map]
  | ok lv =>
    cases bl1 with
    | none =>
      simp only [draw_char, hsp, hnl, hlv, get_variation_start_coords, ite_false, if_neg,
        reduceIte]
      apply draw_char_try_obs
      cases d1 <;> cases d2 <;> simp [draw_debug_lines, Except.map, DrawState.obs]
    | some b =>
      simp only [draw_char, hsp, hnl, hlv, get_variation_start_coords, ite_false, if_neg,
        reduceIte]
      apply draw_char_try_obs
      cases d1 <;> cases d2 <;> simp [draw_debug_lines, Except.map, DrawState.obs]

/-- The character loop run with any two debug flags from states sharing the
same observables yields the same observables. -/
theorem drawLoop_obs (font : Font) (rand : Nat → Nat) (d1 d2 : Bool) (text : List Char)
    (char_n : Nat) (s1 s2 : DrawState) (h : s1.obs = s2.obs) :
    (drawLoop font rand d1 text char_n s1).map DrawState.obs
      = (drawLoop font rand d2 text char_n s2).map DrawState.obs := by
  induction text generalizing char_n s1 s2 with
  | nil => simp [drawLoop, Except.map, h]
  | cons c rest ih =>
    have hc := draw_char_obs font rand d1 d2 char_n c s1 s2 h
    unfold drawLoop
    cases h1 : draw_char font rand d1 char_n c s1 with
    | error e =>
      cases h2 : draw_char font rand d2 char_n c s2 with
      | error e2 =>
        rw [h1, h2] at hc
        simp only [Except.map] at hc
        injection hc with hc
        subst hc
        simp only [h1, h2]
      | ok t2 =>
        rw [h1, h2] at hc
        simp [Except.map] at hc
    | ok t1 =>
      cases h2 : draw_char font rand d2 char_n c s2 with
      | error e2 =>
        rw [h1, h2] at hc
        simp [Except.map] at hc
      | ok t2 =>
        rw [h1, h2] at hc
        simp only [Except.map, Except.ok.injEq] at hc
        simp only [h1, h2]
        exact ih (char_n + 1) t1 t2 hc

/-- Claim C6 as amended: the debug flag toggles only the canvas background
(opaque white versus transparent white) and the debug overlay strokes; the
estimated canvas size, every glyph placement, the cursor, the baseline, the
pending connection and — unlike the original claim — also the drawn connector
segments are identical whether debug is on or off (connectors are drawn in
both modes; see the counterexample theorem for a connector drawn with debug
off). -/
theorem C6_amended_debug_only_background_and_overlays (font : Font) (rand : Nat → Nat)
    (text : List Char) (cursor0 : ℤ × ℤ) :
    (draw font rand text true cursor0).map (fun r => (r.size, r.final.obs))
      = (draw font rand text false cursor0).map (fun r => (r.size, r.final.obs)) ∧
    get_canvas_bg true = (255, 255, 255, 255) ∧
    get_canvas_bg false = (255, 255, 255, 0) := by
  refine ⟨?_, rfl, rfl⟩
  unfold draw
  cases hest : estimate_biggest_canvas_size font text with
  | error e => simp
  | ok size =>
    have hl := drawLoop_obs font rand true false text 0
      { canvasWidth := size.1, cursor := cursor0, baseline_y := none,
        connection_start := none, pastes := [], connectors := [], overlays := [] }
      { canvasWidth := size.1, cursor := cursor0, baseline_y := none,
        connection_start := none, pastes := [], connectors := [], overlays := [] } rfl
    cases h1 : drawLoop font rand true text 0
        { canvasWidth := size.1, cursor := cursor0, baseline_y := none,
          connection_start := none, pastes := [], connectors := [], overlays := [] } with
    | error e =>
      cases h2 : drawLoop font rand false text 0
          { canvasWidth := size.1, cursor := cursor0, baseline_y := none,
            connection_start := none, pastes := [], connectors := [], overlays := [] } with
      | error e2 =>
        rw [h1, h2] at hl
        simp only [Except.map] at hl
        injection hl with hl
        subst hl
        simp only [h1, h2]
      | ok t2 =>
        rw [h1, h2] at hl
        simp [Except.map] at hl
    | ok t1 =>
      cases h2 : drawLoop font rand false text 0
          { canvasWidth := size.1, cursor := cursor0, baseline_y := none,
            connection_start := none, pastes := [], connectors := [], overlays := [] } with
      | error e2 =>
        rw [h1, h2] at hl
        simp [Except.map] at hl
      | ok t2 =>
        rw [h1, h2] at hl
        simp only [Except.map, Except.ok.injEq] at hl
        simp only [h1, h2]
        simp [Except.map, hl]

/-- Claim C9 (confirmed): processing a space advances the cursor x by exactly
60 and clears the pending connection start, and changes nothing else — cursor
y, baseline, canvas width and all recorded canvas side effects are untouched —
so no connector can be drawn across a space. -/
theorem C9_space_advances_sixty_and_clears_connection (font : Font) (rand : Nat → Nat)
    (debug : Bool) (char_n : Nat) (s : DrawState) :
    draw_char font rand debug char_n ' ' s =
      .ok { s with cursor := (s.cursor.1 + 60, s.cursor.2), connection_start := none } :=
  rfl

end Handwriter
